import Mathlib

/-!
Verification of the ProMed inventory application (src/app.py) against its
natural-language specification.  The Flask handlers are shallowly embedded:
dates are day ordinals (`Nat`, so tomorrow = today + 1, matching Python
`date` arithmetic with `timedelta(days=1)`), database tables are lists of
rows, the filesystem is a list of file names, and the SMTP sender is an
oracle telling whether `mail.send` succeeds for a given medicine id.
-/

namespace ProMed

/-- Row of the `user` table (app.py, class User). -/
structure UserRow where
  id : Nat
  username : String
  email : String
  password : String
  deriving DecidableEq

/-- Row of the `medicine` table (app.py, class Medicine).  `alertPrior` embeds
`expiry_alert_sent_prior`, `alertExpiry` embeds `expiry_alert_sent_expiry_day`. -/
structure MedRow where
  id : Nat
  name : String
  factory : String
  mfg : Nat
  expiry : Nat
  uses : String
  qrCode : String
  alertPrior : Bool
  alertExpiry : Bool
  userId : Nat
  deriving DecidableEq

/-- A message successfully handed to `mail.send`.  `isWarning` is true for the
"will expire tomorrow" message and false for the "has expired" message. -/
structure SentMail where
  recip : String
  isWarning : Bool
  medId : Nat
  deriving DecidableEq

/-- Environment of one `send_expiry_alerts` run: the user table, whether the
mail credentials are configured, and the outcome of each attempted SMTP send,
per medicine id and per message kind. -/
structure ScanEnv where
  users : List UserRow
  cfg : Bool
  sendOkW : Nat → Bool
  sendOkE : Nat → Bool

/-- `User.query.get(med.user_id)` followed by the `not user or not user.email`
guard of the scan loops (app.py lines 128-131). -/
def userEmail? (users : List UserRow) (uid : Nat) : Option String :=
  match users.find? (fun u => u.id == uid) with
  | some u => if u.email == "" then none else some u.email
  | none => none

/-- Selection predicate of the first query of `send_expiry_alerts`
(app.py lines 113-116): expiry is tomorrow and the prior flag is unset. -/
def warnCond (today : Nat) (m : MedRow) : Bool :=
  m.expiry == today + 1 && !m.alertPrior

/-- Selection predicate of the second query of `send_expiry_alerts`
(app.py lines 119-122): expiry is today and the expiry-day flag is unset. -/
def expCond (today : Nat) (m : MedRow) : Bool :=
  m.expiry == today && !m.alertExpiry

/-- A loop iteration of `send_expiry_alerts` reaches a successful
`mail.send` for `m`: the owner exists with a nonempty email, the mail
credentials are configured, and the SMTP send does not raise. -/
def attemptOk (env : ScanEnv) (ok : Nat → Bool) (m : MedRow) : Bool :=
  (userEmail? env.users m.userId).isSome && env.cfg && ok m.id

/-- The mail actually delivered for a selected medicine, if any: `continue`
on a missing owner/email or missing credentials, failure oracle on the send. -/
def sentFor (env : ScanEnv) (ok : Nat → Bool) (w : Bool) (m : MedRow) : Option SentMail :=
  match userEmail? env.users m.userId with
  | none => none
  | some e => if env.cfg && ok m.id then some ⟨e, w, m.id⟩ else none

/-- Effect of the first loop of `send_expiry_alerts` on one row: after a
successful send the prior flag is set and committed (app.py lines 144-146). -/
def warnUpd (env : ScanEnv) (today : Nat) (m : MedRow) : MedRow :=
  if warnCond today m && attemptOk env env.sendOkW m then
    { m with alertPrior := true } else m

/-- Effect of the second loop on one row: after a successful send the
expiry-day flag is set and committed (app.py lines 175-177). -/
def expUpd (env : ScanEnv) (today : Nat) (m : MedRow) : MedRow :=
  if expCond today m && attemptOk env env.sendOkE m then
    { m with alertExpiry := true } else m

/-- `send_expiry_alerts` (app.py lines 105-186).  Both selections are
materialised first (`.all()`), then each loop updates the flags of the rows
it successfully mailed; the result is the new medicine table and the list of
delivered messages, warnings first, in table order. -/
def sendExpiryAlerts (env : ScanEnv) (today : Nat) (meds : List MedRow) :
    List MedRow × List SentMail :=
  ((meds.map (warnUpd env today)).map (expUpd env today),
   (meds.filter (warnCond today)).filterMap (sentFor env env.sendOkW true) ++
   (meds.filter (expCond today)).filterMap (sentFor env env.sendOkE false))

/-- Python `str.lower` on the character list of a string (ASCII case map). -/
def pyLower (s : String) : String := ⟨s.data.map Char.toLower⟩

/-- Python `str.strip`: drop leading and trailing whitespace. -/
def pyStrip (s : String) : String :=
  ⟨((s.data.dropWhile Char.isWhitespace).reverse.dropWhile Char.isWhitespace).reverse⟩

/-- Persistent state touched by the medicine handlers: the `medicine` table
and the QR image files on disk. -/
structure AppState where
  meds : List MedRow
  files : List String
  deriving DecidableEq

inductive ViewResult where
  | notFound
  | forbidden
  | page (m : MedRow)
  deriving DecidableEq

/-- `view_medicine` (app.py lines 307-313): `get_or_404`, then 403 unless the
session user owns the row, else render the row. -/
def view_medicine (st : AppState) (uid mid : Nat) : ViewResult :=
  match st.meds.find? (fun m => m.id == mid) with
  | none => .notFound
  | some med => if med.userId != uid then .forbidden else .page med

inductive DeleteResult where
  | notFound
  | forbidden
  | deleted
  | errorFlash
  deriving DecidableEq

/-- `delete_medicine` (app.py lines 315-329): `get_or_404`, ownership check,
then inside one try block: remove the QR file if it exists (`removeRaises`
models `os.remove` raising), delete the row, commit; any exception rolls the
session back and flashes an error, leaving the state unchanged. -/
def delete_medicine (st : AppState) (uid mid : Nat) (removeRaises : Bool) :
    DeleteResult × AppState :=
  match st.meds.find? (fun m => m.id == mid) with
  | none => (.notFound, st)
  | some med =>
    if med.userId != uid then (.forbidden, st)
    else if st.files.contains med.qrCode then
      if removeRaises then (.errorFlash, st)
      else (.deleted, ⟨st.meds.filter (fun m => m.id != mid), st.files.erase med.qrCode⟩)
    else (.deleted, ⟨st.meds.filter (fun m => m.id != mid), st.files⟩)

inductive AddResult where
  | blankErr
  | dateErr
  | orderErr
  | created
  deriving DecidableEq

/-- `add_medicine` POST path (app.py lines 258-297).  `parseDate` is the
outcome of `datetime.strptime(_, '%Y-%m-%d')` on a given string (`none` when
it raises ValueError).  On success the QR image file is written and the row is
inserted with both alert flags false. -/
def add_medicine (st : AppState) (uid : Nat) (parseDate : String → Option Nat)
    (name fac mfg_s exp_s uses : String) (qrFile : String) (nextId : Nat) :
    AddResult × AppState :=
  let n := pyStrip name
  let f := pyStrip fac
  let ms := pyStrip mfg_s
  let es := pyStrip exp_s
  let us := pyStrip uses
  if n == "" || f == "" || ms == "" || es == "" || us == "" then (.blankErr, st)
  else
    match parseDate ms, parseDate es with
    | some mfg, some exp =>
      if exp ≤ mfg then (.orderErr, st)
      else (.created,
        { st with
            files := st.files ++ [qrFile],
            meds := st.meds ++ [⟨nextId, n, f, mfg, exp, us, qrFile, false, false, uid⟩] })
    | _, _ => (.dateErr, st)

/-- Modelled opaque password-hashing adapter (werkzeug `generate_password_hash`):
a one-way tag whose only property used by the app is that `checkPw` recognises
the password it was built from. -/
def hashPw (p : String) : String := "pbkdf2-sha256-digest-of:" ++ p

/-- werkzeug `check_password_hash`: true iff the password hashes to the digest. -/
def checkPw (digest pw : String) : Bool := digest == hashPw pw

/-- The session principal established by a successful login
(app.py lines 241-243). -/
structure Principal where
  userId : Nat
  username : String
  email : String
  deriving DecidableEq

/-- `login` POST path (app.py lines 235-247): the identifier is stripped and
lowercased, the first user whose username or email equals it is fetched, and
the password is checked against the stored hash. -/
def login (users : List UserRow) (loginInput pwd : String) : Option Principal :=
  let li := pyLower (pyStrip loginInput)
  let pw := pyStrip pwd
  match users.find? (fun u => u.username == li || u.email == li) with
  | some u => if checkPw u.password pw then some ⟨u.id, u.username, u.email⟩ else none
  | none => none

/-- ASCII reading of Python regex class `\w`. -/
def isWordChar (c : Char) : Bool := c.isAlphanum || c == '_'

/-- ASCII reading of Python regex class `[\w\.-]`. -/
def isLocalChar (c : Char) : Bool := isWordChar c || c == '.' || c == '-'

/-- Split at the first occurrence of `sep`, if any. -/
def splitFirstChar (sep : Char) : List Char → Option (List Char × List Char)
  | [] => none
  | c :: cs =>
    if c == sep then some ([], cs)
    else
      match splitFirstChar sep cs with
      | none => none
      | some (a, b) => some (c :: a, b)

/-- `is_valid_email` (app.py lines 79-80), i.e. a full match of
`[\w.-]+@[\w.-]+\.\w+`.  The character classes contain no `@`, so the
pattern's `@` can only match the first `@` of the string, and the trailing
`\w+` contains no dot, so the pattern's `\.` can only match the last dot
after the `@`; the regex matches exactly when that decomposition checks out. -/
def isValidEmail (s : String) : Bool :=
  match splitFirstChar '@' s.data with
  | none => false
  | some (loc, rest) =>
    match splitFirstChar '.' rest.reverse with
    | none => false
    | some (tldR, domR) =>
      (!loc.isEmpty) && loc.all isLocalChar &&
      (!domR.isEmpty) && (domR.reverse).all isLocalChar &&
      (!tldR.isEmpty) && (tldR.reverse).all isWordChar

inductive SignupResult where
  | blankErr
  | emailErr
  | pwdErr
  | dupErr
  | created
  deriving DecidableEq

/-- `signup` POST path (app.py lines 213-230): strip the fields (lowercasing
the email), then in order reject blanks, an invalid email, a password shorter
than six characters, and a duplicate username or email; otherwise insert the
user with the hashed password. -/
def signup (users : List UserRow) (nextId : Nat) (uname email pwd : String) :
    SignupResult × List UserRow :=
  let un := pyStrip uname
  let em := pyLower (pyStrip email)
  let pw := pyStrip pwd
  if un == "" || em == "" || pw == "" then (.blankErr, users)
  else if !isValidEmail em then (.emailErr, users)
  else if pw.length < 6 then (.pwdErr, users)
  else if users.any (fun u => u.username == un || u.email == em) then (.dupErr, users)
  else (.created, users ++ [⟨nextId, un, em, hashPw pw⟩])

/-!
QR payload encoding (add_medicine line 281) and decoding (qr_scan_handler,
lines 332-351).  `urllib.parse.quote` works on the UTF-8 bytes of a string and
werkzeug's query parsing percent-decodes back to bytes before UTF-8 decoding,
so both sides are modelled at the byte level: a text field is its list of
UTF-8 byte values (each < 256).
-/

/-- Bytes `urllib.parse.quote` leaves unescaped with its default `safe='/'`:
ASCII letters, digits, `_ . - ~` and `/`. -/
def isSafeByte (b : Nat) : Bool :=
  (65 ≤ b && b ≤ 90) || (97 ≤ b && b ≤ 122) || (48 ≤ b && b ≤ 57) ||
  b == 95 || b == 46 || b == 45 || b == 126 || b == 47

/-- Upper-case hex digit of a nibble, as a byte (urllib quotes with
upper-case hex). -/
def hexDigit (n : Nat) : Nat := if n < 10 then 48 + n else 55 + n

/-- One byte of `urllib.parse.quote` output: kept when safe, else `%XX`
(37 is the `%` byte). -/
def quoteByte (b : Nat) : List Nat :=
  if isSafeByte b then [b] else [37, hexDigit (b / 16), hexDigit (b % 16)]

/-- `urllib.parse.quote` over a byte string. -/
def quoteBytes : List Nat → List Nat
  | [] => []
  | b :: t => quoteByte b ++ quoteBytes t

/-- Value of an ASCII hex digit, as used by percent-decoding. -/
def hexVal? (c : Nat) : Option Nat :=
  if 48 ≤ c && c ≤ 57 then some (c - 48)
  else if 65 ≤ c && c ≤ 70 then some (c - 55)
  else if 97 ≤ c && c ≤ 102 then some (c - 87)
  else none

/-- Recursion core of `unquotePlus`; the fuel argument only makes the
recursion structural and is always at least the length of the input, so the
fuel-exhausted branch is unreachable. -/
def unquoteAux : Nat → List Nat → List Nat
  | 0, l => l
  | _ + 1, [] => []
  | fuel + 1, c :: rest =>
    if c == 43 then 32 :: unquoteAux fuel rest
    else if c == 37 then
      match rest with
      | h1 :: h2 :: rest2 =>
        match hexVal? h1, hexVal? h2 with
        | some a, some b => (16 * a + b) :: unquoteAux fuel rest2
        | _, _ => 37 :: unquoteAux fuel (h1 :: h2 :: rest2)
      | _ => 37 :: unquoteAux fuel rest
    else c :: unquoteAux fuel rest

/-- werkzeug's per-field query decoding (`unquote_plus` semantics): `+`
becomes a space, a valid `%XX` escape becomes the byte `XX`, a malformed `%`
stays literal and decoding resumes right after it. -/
def unquotePlus (l : List Nat) : List Nat := unquoteAux l.length l

/-- Split a byte string on every occurrence of `sep` (how the query string is
cut at `&`, byte 38). -/
def splitOnByte (sep : Nat) : List Nat → List (List Nat)
  | [] => [[]]
  | c :: rest =>
    if c == sep then [] :: splitOnByte sep rest
    else
      match splitOnByte sep rest with
      | [] => [[c]]
      | h :: t => (c :: h) :: t

/-- Split one `key=value` chunk at its first `=` (byte 61); a chunk without
`=` keeps everything in the key. -/
def splitPairByte : List Nat → List Nat × List Nat
  | [] => ([], [])
  | c :: rest =>
    if c == 61 then ([], rest)
    else
      match splitPairByte rest with
      | (k, v) => (c :: k, v)

/-- werkzeug's parsing of a query string into decoded key/value pairs, as
consumed through `request.args` by `qr_scan_handler`. -/
def parseQuery (l : List Nat) : List (List Nat × List Nat) :=
  (splitOnByte 38 l).map (fun p =>
    (unquotePlus (splitPairByte p).1, unquotePlus (splitPairByte p).2))

/-- A Python `datetime.date`, only needed here for its `str()` rendering
inside the QR URL f-string. -/
structure PyDate where
  y : Nat
  m : Nat
  d : Nat
  deriving DecidableEq

/-- Two-digit zero-padded decimal rendering, as bytes. -/
def pad2 (n : Nat) : List Nat := [48 + n / 10 % 10, 48 + n % 10]

/-- Four-digit zero-padded decimal rendering, as bytes. -/
def pad4 (n : Nat) : List Nat :=
  [48 + n / 1000 % 10, 48 + n / 100 % 10, 48 + n / 10 % 10, 48 + n % 10]

/-- `str(date)`, i.e. ISO `YYYY-MM-DD`, as bytes (45 is `-`). -/
def dateBytes (dt : PyDate) : List Nat :=
  pad4 dt.y ++ [45] ++ pad2 dt.m ++ [45] ++ pad2 dt.d

def kName : List Nat := [110, 97, 109, 101]
def kFactory : List Nat := [102, 97, 99, 116, 111, 114, 121]
def kMfg : List Nat := [109, 102, 103]
def kExp : List Nat := [101, 120, 112]
def kUses : List Nat := [117, 115, 101, 115]

/-- The query string of the URL put into the QR image (add_medicine line 281):
`name`, `factory` and `uses` are passed through `urllib.parse.quote`, the two
dates through `str()` (61 is `=`, 38 is `&`). -/
def qrQueryBytes (name fac uses : List Nat) (mfg exp : PyDate) : List Nat :=
  kName ++ [61] ++ quoteBytes name ++ [38] ++
  kFactory ++ [61] ++ quoteBytes fac ++ [38] ++
  kMfg ++ [61] ++ dateBytes mfg ++ [38] ++
  kExp ++ [61] ++ dateBytes exp ++ [38] ++
  kUses ++ [61] ++ quoteBytes uses

/-- Bytes that would break or change a query-string value if left literal:
`& = + space # ?`. -/
def isReservedQueryByte (b : Nat) : Bool :=
  b == 38 || b == 61 || b == 43 || b == 32 || b == 35 || b == 63

/-! ## Basic facts about the scan's row updates -/

theorem warnUpd_id (env : ScanEnv) (td : Nat) (m : MedRow) :
    (warnUpd env td m).id = m.id := by
  unfold warnUpd; split <;> rfl

theorem expUpd_id (env : ScanEnv) (td : Nat) (m : MedRow) :
    (expUpd env td m).id = m.id := by
  unfold expUpd; split <;> rfl

theorem warnUpd_userId (env : ScanEnv) (td : Nat) (m : MedRow) :
    (warnUpd env td m).userId = m.userId := by
  unfold warnUpd; split <;> rfl

theorem warnUpd_expiry (env : ScanEnv) (td : Nat) (m : MedRow) :
    (warnUpd env td m).expiry = m.expiry := by
  unfold warnUpd; split <;> rfl

theorem warnUpd_alertExpiry (env : ScanEnv) (td : Nat) (m : MedRow) :
    (warnUpd env td m).alertExpiry = m.alertExpiry := by
  unfold warnUpd; split <;> rfl

theorem expUpd_alertPrior (env : ScanEnv) (td : Nat) (m : MedRow) :
    (expUpd env td m).alertPrior = m.alertPrior := by
  unfold expUpd; split <;> rfl

theorem warnUpd_noop (env : ScanEnv) (td : Nat) (m : MedRow)
    (h : warnCond td m = false) : warnUpd env td m = m := by
  unfold warnUpd; simp [h]

theorem expUpd_noop (env : ScanEnv) (td : Nat) (m : MedRow)
    (h : expCond td m = false) : expUpd env td m = m := by
  unfold expUpd; simp [h]

theorem warnUpd_noop_of_sendFail (env : ScanEnv) (td : Nat) (m : MedRow)
    (h : env.sendOkW m.id = false) : warnUpd env td m = m := by
  unfold warnUpd attemptOk; simp [h]

theorem expUpd_noop_of_sendFail (env : ScanEnv) (td : Nat) (m : MedRow)
    (h : env.sendOkE m.id = false) : expUpd env td m = m := by
  unfold expUpd attemptOk; simp [h]

theorem sentFor_eq_some {env : ScanEnv} {ok : Nat → Bool} {w : Bool} {m : MedRow}
    {s : SentMail} (h : sentFor env ok w m = some s) :
    s.medId = m.id ∧ s.isWarning = w := by
  unfold sentFor at h
  split at h
  · cases h
  · split at h
    · cases h; exact ⟨rfl, rfl⟩
    · cases h

theorem sentFor_some_attempt {env : ScanEnv} {ok : Nat → Bool} {w : Bool} {m : MedRow}
    {s : SentMail} (h : sentFor env ok w m = some s) : attemptOk env ok m = true := by
  unfold sentFor at h
  unfold attemptOk
  split at h
  · cases h
  · rename_i e he
    rw [he]
    split at h
    · rename_i hc
      simp only [Option.isSome_some, Bool.true_and]
      exact hc
    · cases h

theorem nodup_ids_inj (l : List MedRow)
    (hnd : (l.map (fun m => m.id)).Nodup) :
    ∀ x, x ∈ l → ∀ y, y ∈ l → x.id = y.id → x = y := by
  induction l with
  | nil => intro x hx; cases hx
  | cons a t ih =>
    rw [List.map_cons, List.nodup_cons] at hnd
    obtain ⟨ha, ht⟩ := hnd
    intro x hx y hy hxy
    rcases List.mem_cons.mp hx with hxa | hxt
    · rcases List.mem_cons.mp hy with hya | hyt
      · rw [hxa, hya]
      · exfalso
        apply ha
        rw [← hxa, hxy]
        exact List.mem_map_of_mem _ hyt
    · rcases List.mem_cons.mp hy with hya | hyt
      · exfalso
        apply ha
        rw [← hya, ← hxy]
        exact List.mem_map_of_mem _ hxt
      · exact ih ht x hxt y hyt hxy

theorem scan_ids (env : ScanEnv) (td : Nat) (meds : List MedRow) :
    ((sendExpiryAlerts env td meds).1).map (fun m => m.id) =
      meds.map (fun m => m.id) := by
  unfold sendExpiryAlerts
  induction meds with
  | nil => rfl
  | cons m t ih => simp only [List.map_cons, ih, expUpd_id, warnUpd_id]

theorem mem_scan_of_noop (env : ScanEnv) (td : Nat) (meds : List MedRow) (m : MedRow)
    (hm : m ∈ meds) (hw : warnUpd env td m = m) (he : expUpd env td m = m) :
    m ∈ (sendExpiryAlerts env td meds).1 := by
  unfold sendExpiryAlerts
  refine List.mem_map.mpr ⟨warnUpd env td m, List.mem_map_of_mem _ hm, ?_⟩
  rw [hw, he]

/-! ## C3: records away from both alert dates are never selected or mailed -/

/-- C3: a medicine whose expiry date is neither today nor tomorrow (for
instance one already past expiry), whatever its flag values, is selected by
neither scan query, survives the scan unchanged, and no mail of the scan
refers to it. -/
theorem scan_ignores_other_dates
    (env : ScanEnv) (td : Nat) (meds : List MedRow) (m : MedRow)
    (hnd : (meds.map (fun x => x.id)).Nodup) (hm : m ∈ meds)
    (h1 : m.expiry ≠ td) (h2 : m.expiry ≠ td + 1) :
    m ∉ meds.filter (warnCond td) ∧ m ∉ meds.filter (expCond td) ∧
    m ∈ (sendExpiryAlerts env td meds).1 ∧
    ∀ s ∈ (sendExpiryAlerts env td meds).2, s.medId ≠ m.id := by
  have hw : warnCond td m = false := by simp [warnCond, h2]
  have he : expCond td m = false := by simp [expCond, h1]
  refine ⟨?_, ?_, ?_, ?_⟩
  · intro hmem
    have := (List.mem_filter.mp hmem).2
    rw [hw] at this
    cases this
  · intro hmem
    have := (List.mem_filter.mp hmem).2
    rw [he] at this
    cases this
  · exact mem_scan_of_noop env td meds m hm (warnUpd_noop env td m hw)
      (expUpd_noop env td m he)
  · intro s hs hsm
    unfold sendExpiryAlerts at hs
    rcases List.mem_append.mp hs with hs | hs
    · obtain ⟨x, hxmem, hxs⟩ := List.mem_filterMap.mp hs
      have hxfil := List.mem_filter.mp hxmem
      have hxid : x.id = m.id := by rw [← (sentFor_eq_some hxs).1, hsm]
      have hxm : x = m := nodup_ids_inj meds hnd x hxfil.1 m hm hxid
      rw [hxm, hw] at hxfil
      cases hxfil.2
    · obtain ⟨x, hxmem, hxs⟩ := List.mem_filterMap.mp hs
      have hxfil := List.mem_filter.mp hxmem
      have hxid : x.id = m.id := by rw [← (sentFor_eq_some hxs).1, hsm]
      have hxm : x = m := nodup_ids_inj meds hnd x hxfil.1 m hm hxid
      rw [hxm, he] at hxfil
      cases hxfil.2

theorem scan_ignores_other_dates_witness :
    (⟨9, "P", "A", 1, 5, "u", "q", false, false, 1⟩ : MedRow) ∉
      [(⟨9, "P", "A", 1, 5, "u", "q", false, false, 1⟩ : MedRow)].filter (warnCond 10) ∧
    (⟨9, "P", "A", 1, 5, "u", "q", false, false, 1⟩ : MedRow) ∉
      [(⟨9, "P", "A", 1, 5, "u", "q", false, false, 1⟩ : MedRow)].filter (expCond 10) ∧
    (⟨9, "P", "A", 1, 5, "u", "q", false, false, 1⟩ : MedRow) ∈
      (sendExpiryAlerts ⟨[⟨1, "bob", "b@x.co", "h"⟩], true, fun _ => true, fun _ => true⟩
        10 [⟨9, "P", "A", 1, 5, "u", "q", false, false, 1⟩]).1 ∧
    ∀ s ∈ (sendExpiryAlerts ⟨[⟨1, "bob", "b@x.co", "h"⟩], true, fun _ => true,
        fun _ => true⟩ 10 [⟨9, "P", "A", 1, 5, "u", "q", false, false, 1⟩]).2,
      s.medId ≠ (⟨9, "P", "A", 1, 5, "u", "q", false, false, 1⟩ : MedRow).id :=
  scan_ignores_other_dates
    ⟨[⟨1, "bob", "b@x.co", "h"⟩], true, fun _ => true, fun _ => true⟩ 10
    [⟨9, "P", "A", 1, 5, "u", "q", false, false, 1⟩]
    ⟨9, "P", "A", 1, 5, "u", "q", false, false, 1⟩
    (by decide) (by decide) (by decide) (by decide)

/-! ## C4: a failed send leaves the flag false and the record re-selectable -/

/-- C4: if the SMTP send raises for a selected medicine, its alert flag is
still false after the scan (the row survives unchanged), so the same record
is again in the corresponding selection of a next scan run on the same date. -/
theorem send_failure_leaves_flag_for_retry
    (env : ScanEnv) (td : Nat) (meds : List MedRow) (m : MedRow) (hm : m ∈ meds) :
    ((m.expiry = td + 1 ∧ m.alertPrior = false ∧ env.sendOkW m.id = false) →
      m ∈ (sendExpiryAlerts env td meds).1 ∧
      m ∈ ((sendExpiryAlerts env td meds).1).filter (warnCond td)) ∧
    ((m.expiry = td ∧ m.alertExpiry = false ∧ env.sendOkE m.id = false) →
      m ∈ (sendExpiryAlerts env td meds).1 ∧
      m ∈ ((sendExpiryAlerts env td meds).1).filter (expCond td)) := by
  constructor
  · rintro ⟨hexp, hflag, hok⟩
    have hmem : m ∈ (sendExpiryAlerts env td meds).1 :=
      mem_scan_of_noop env td meds m hm (warnUpd_noop_of_sendFail env td m hok)
        (expUpd_noop env td m (by simp [expCond, hexp]))
    exact ⟨hmem, List.mem_filter.mpr ⟨hmem, by simp [warnCond, hexp, hflag]⟩⟩
  · rintro ⟨hexp, hflag, hok⟩
    have hmem : m ∈ (sendExpiryAlerts env td meds).1 :=
      mem_scan_of_noop env td meds m hm
        (warnUpd_noop env td m (by simp [warnCond, hexp]))
        (expUpd_noop_of_sendFail env td m hok)
    exact ⟨hmem, List.mem_filter.mpr ⟨hmem, by simp [expCond, hexp, hflag]⟩⟩

theorem send_failure_leaves_flag_for_retry_witness :
    (⟨9, "P", "A", 1, 11, "u", "q", false, false, 1⟩ : MedRow) ∈
      (sendExpiryAlerts ⟨[⟨1, "bob", "b@x.co", "h"⟩], true, fun _ => false,
        fun _ => false⟩ 10 [⟨9, "P", "A", 1, 11, "u", "q", false, false, 1⟩]).1 ∧
    (⟨9, "P", "A", 1, 11, "u", "q", false, false, 1⟩ : MedRow) ∈
      ((sendExpiryAlerts ⟨[⟨1, "bob", "b@x.co", "h"⟩], true, fun _ => false,
        fun _ => false⟩ 10 [⟨9, "P", "A", 1, 11, "u", "q", false, false, 1⟩]).1).filter
        (warnCond 10) :=
  (send_failure_leaves_flag_for_retry
    ⟨[⟨1, "bob", "b@x.co", "h"⟩], true, fun _ => false, fun _ => false⟩ 10
    [⟨9, "P", "A", 1, 11, "u", "q", false, false, 1⟩]
    ⟨9, "P", "A", 1, 11, "u", "q", false, false, 1⟩ (by decide)).1
    ⟨rfl, rfl, rfl⟩

/-! ## C9: per-record send failures are isolated -/

theorem sentFor_congr (env env' : ScanEnv) (ok ok' : Nat → Bool) (w : Bool) (m : MedRow)
    (hu : env.users = env'.users) (hc : env.cfg = env'.cfg)
    (hok : ok m.id = ok' m.id) :
    sentFor env ok w m = sentFor env' ok' w m := by
  unfold sentFor
  rw [hu, hc, hok]

theorem filterMap_sentFor_filter_ne (env env' : ScanEnv) (ok ok' : Nat → Bool)
    (w : Bool) (j : Nat)
    (hu : env.users = env'.users) (hc : env.cfg = env'.cfg)
    (hok : ∀ i, i ≠ j → ok i = ok' i) :
    ∀ l : List MedRow,
      (l.filterMap (sentFor env ok w)).filter (fun s => !(s.medId == j)) =
      (l.filterMap (sentFor env' ok' w)).filter (fun s => !(s.medId == j)) := by
  intro l
  induction l with
  | nil => rfl
  | cons m t ih =>
    rw [List.filterMap_cons, List.filterMap_cons]
    by_cases hmj : m.id = j
    · have hdrop : ∀ (f : MedRow → Option SentMail) (s : SentMail), f m = some s →
          sentFor env ok w m = f m ∨ sentFor env' ok' w m = f m →
          (!(s.medId == j)) = false := by
        intro f s hfm hf
        rcases hf with hf | hf
        · have := (sentFor_eq_some (hf.trans hfm)).1
          simp [this, hmj]
        · have := (sentFor_eq_some (hf.trans hfm)).1
          simp [this, hmj]
      cases h1 : sentFor env ok w m with
      | none =>
        cases h2 : sentFor env' ok' w m with
        | none => exact ih
        | some s =>
          rw [List.filter_cons,
            hdrop (sentFor env' ok' w) s h2 (Or.inr rfl)]
          exact ih
      | some s =>
        cases h2 : sentFor env' ok' w m with
        | none =>
          rw [List.filter_cons,
            hdrop (sentFor env ok w) s h1 (Or.inl rfl)]
          exact ih
        | some s' =>
          rw [List.filter_cons, List.filter_cons,
            hdrop (sentFor env ok w) s h1 (Or.inl rfl),
            hdrop (sentFor env' ok' w) s' h2 (Or.inr rfl)]
          exact ih
    · rw [sentFor_congr env env' ok ok' w m hu hc (hok m.id hmj)]
      cases h2 : sentFor env' ok' w m with
      | none => exact ih
      | some s => rw [List.filter_cons, List.filter_cons, ih]

/-- C9: a send failure for one medicine does not affect the rest of the batch.
If two runs of the scan differ only in the SMTP outcome for medicine id `j`
(for instance one where sending for `j` raises and one where it succeeds),
then the mails delivered for every other medicine are identical, and every
row whose id is not `j` ends up in the same state. -/
theorem scan_isolates_send_failures
    (env env' : ScanEnv) (td : Nat) (meds : List MedRow) (j : Nat)
    (hu : env.users = env'.users) (hc : env.cfg = env'.cfg)
    (hW : ∀ i, i ≠ j → env.sendOkW i = env'.sendOkW i)
    (hE : ∀ i, i ≠ j → env.sendOkE i = env'.sendOkE i) :
    ((sendExpiryAlerts env td meds).2.filter (fun s => !(s.medId == j)) =
     (sendExpiryAlerts env' td meds).2.filter (fun s => !(s.medId == j))) ∧
    ∀ (p : Nat) (m : MedRow), meds[p]? = some m → m.id ≠ j →
      (sendExpiryAlerts env td meds).1[p]? = (sendExpiryAlerts env' td meds).1[p]? := by
  constructor
  · unfold sendExpiryAlerts
    simp only [List.filter_append]
    rw [filterMap_sentFor_filter_ne env env' env.sendOkW env'.sendOkW true j hu hc hW,
      filterMap_sentFor_filter_ne env env' env.sendOkE env'.sendOkE false j hu hc hE]
  · intro p m hp hmj
    have e1 : (sendExpiryAlerts env td meds).1 =
        (meds.map (warnUpd env td)).map (expUpd env td) := rfl
    have e2 : (sendExpiryAlerts env' td meds).1 =
        (meds.map (warnUpd env' td)).map (expUpd env' td) := rfl
    rw [e1, e2, List.getElem?_map, List.getElem?_map, List.getElem?_map,
      List.getElem?_map, hp]
    have hwu : warnUpd env td m = warnUpd env' td m := by
      unfold warnUpd attemptOk
      rw [hu, hc, hW m.id hmj]
    have heu : expUpd env td (warnUpd env' td m) = expUpd env' td (warnUpd env' td m) := by
      unfold expUpd attemptOk
      rw [hu, hc, warnUpd_id, hE m.id hmj]
    simp [hwu, heu]

theorem scan_isolates_send_failures_witness :
    ((sendExpiryAlerts ⟨[⟨1, "bob", "b@x.co", "h"⟩], true, fun _ => false,
        fun _ => false⟩ 10
        [⟨7, "P", "A", 1, 11, "u", "q", false, false, 1⟩,
         ⟨9, "Q", "B", 1, 11, "v", "r", false, false, 1⟩]).2.filter
        (fun s => !(s.medId == 7)) =
      (sendExpiryAlerts ⟨[⟨1, "bob", "b@x.co", "h"⟩], true,
        fun i => i == 7, fun i => i == 7⟩ 10
        [⟨7, "P", "A", 1, 11, "u", "q", false, false, 1⟩,
         ⟨9, "Q", "B", 1, 11, "v", "r", false, false, 1⟩]).2.filter
        (fun s => !(s.medId == 7))) ∧
    (sendExpiryAlerts ⟨[⟨1, "bob", "b@x.co", "h"⟩], true, fun _ => false,
        fun _ => false⟩ 10
        [⟨7, "P", "A", 1, 11, "u", "q", false, false, 1⟩,
         ⟨9, "Q", "B", 1, 11, "v", "r", false, false, 1⟩]).1[1]? =
      (sendExpiryAlerts ⟨[⟨1, "bob", "b@x.co", "h"⟩], true,
        fun i => i == 7, fun i => i == 7⟩ 10
        [⟨7, "P", "A", 1, 11, "u", "q", false, false, 1⟩,
         ⟨9, "Q", "B", 1, 11, "v", "r", false, false, 1⟩]).1[1]? := by
  have h := scan_isolates_send_failures
    ⟨[⟨1, "bob", "b@x.co", "h"⟩], true, fun _ => false, fun _ => false⟩
    ⟨[⟨1, "bob", "b@x.co", "h"⟩], true, fun i => i == 7, fun i => i == 7⟩ 10
    [⟨7, "P", "A", 1, 11, "u", "q", false, false, 1⟩,
     ⟨9, "Q", "B", 1, 11, "v", "r", false, false, 1⟩] 7
    rfl rfl (by intro i hij; simp [hij]) (by intro i hij; simp [hij])
  exact ⟨h.1, h.2 1 ⟨9, "Q", "B", 1, 11, "v", "r", false, false, 1⟩ rfl (by decide)⟩

/-! ## C2: the scan is idempotent within one day -/

theorem mailP_medId {s : SentMail} {i : Nat} {b : Bool}
    (h : (s.medId == i && b) = true) : s.medId = i := by
  simp only [Bool.and_eq_true] at h
  exact eq_of_beq h.1

theorem countP_filterMap_le {α β : Type} (f : α → Option β) (p : β → Bool) (q : α → Bool)
    (h : ∀ a b, f a = some b → p b = true → q a = true) :
    ∀ l : List α, (l.filterMap f).countP p ≤ l.countP q := by
  intro l
  induction l with
  | nil => simp
  | cons a t ih =>
    rw [List.filterMap_cons, List.countP_cons]
    cases hfa : f a with
    | none =>
      by_cases hqa : q a = true <;> simp [hqa] <;> omega
    | some b =>
      rw [List.countP_cons]
      by_cases hpb : p b = true
      · have hqa : q a = true := h a b hfa hpb
        simp [hpb, hqa]
        omega
      · have hpb' : p b = false := by
          cases hx : p b
          · rfl
          · exact absurd hx hpb
        by_cases hqa : q a = true <;> simp [hpb', hqa] <;> omega

theorem countP_filter_le {α : Type} (c q : α → Bool) :
    ∀ l : List α, (l.filter c).countP q ≤ l.countP q := by
  intro l
  induction l with
  | nil => simp
  | cons a t ih =>
    rw [List.filter_cons, List.countP_cons]
    by_cases hca : c a = true
    · rw [if_pos hca, List.countP_cons]
      by_cases hqa : q a = true <;> simp [hqa] <;> omega
    · rw [if_neg hca]
      by_cases hqa : q a = true <;> simp [hqa] <;> omega

theorem countP_id_le_one (i : Nat) :
    ∀ l : List MedRow, (l.map (fun m => m.id)).Nodup →
      l.countP (fun m => m.id == i) ≤ 1 := by
  intro l
  induction l with
  | nil => intro _; simp
  | cons a t ih =>
    intro hnd
    rw [List.map_cons, List.nodup_cons] at hnd
    obtain ⟨ha, ht⟩ := hnd
    rw [List.countP_cons]
    by_cases hai : a.id = i
    · have hz : t.countP (fun m => m.id == i) = 0 := by
        rw [List.countP_eq_zero]
        intro x hx hpx
        apply ha
        rw [hai, ← eq_of_beq hpx]
        exact List.mem_map_of_mem _ hx
      simp [hai, hz]
    · have hfalse : (a.id == i) = false := by simp [hai]
      simp only [hfalse, if_false, Nat.add_zero]
      exact ih ht

theorem filterMap_sentFor_countP_le_one (env : ScanEnv) (ok : Nat → Bool) (w : Bool)
    (c : MedRow → Bool) (meds : List MedRow)
    (hnd : (meds.map (fun m => m.id)).Nodup) (i : Nat) (p : SentMail → Bool)
    (hp : ∀ s, p s = true → s.medId = i) :
    ((meds.filter c).filterMap (sentFor env ok w)).countP p ≤ 1 :=
  le_trans
    (countP_filterMap_le (sentFor env ok w) p (fun m => m.id == i)
      (fun a b hab hpb => by
        have h1 := (sentFor_eq_some hab).1
        have h2 := hp b hpb
        simp [← h1, h2]) _)
    (le_trans (countP_filter_le c _ meds) (countP_id_le_one i meds hnd))

theorem filterMap_sentFor_countP_kind_zero (env : ScanEnv) (ok : Nat → Bool) (w : Bool)
    (l : List MedRow) (p : SentMail → Bool)
    (hp : ∀ s, s.isWarning = w → p s = false) :
    (l.filterMap (sentFor env ok w)).countP p = 0 := by
  rw [List.countP_eq_zero]
  intro s hs hps
  obtain ⟨x, hx, hxs⟩ := List.mem_filterMap.mp hs
  rw [hp s (sentFor_eq_some hxs).2] at hps
  cases hps

theorem warn_mail_sets_flag (env : ScanEnv) (td : Nat) (meds : List MedRow)
    (hnd : (meds.map (fun m => m.id)).Nodup) {s : SentMail}
    (hs : s ∈ (meds.filter (warnCond td)).filterMap (sentFor env env.sendOkW true)) :
    ∀ m' ∈ (sendExpiryAlerts env td meds).1, m'.id = s.medId → m'.alertPrior = true := by
  obtain ⟨x, hxmem, hxs⟩ := List.mem_filterMap.mp hs
  have hxfil := List.mem_filter.mp hxmem
  have hsid := (sentFor_eq_some hxs).1
  have hatt := sentFor_some_attempt hxs
  intro m' hm' hid'
  have e1 : (sendExpiryAlerts env td meds).1 =
      (meds.map (warnUpd env td)).map (expUpd env td) := rfl
  rw [e1] at hm'
  obtain ⟨y, hy, hym'⟩ := List.mem_map.mp hm'
  obtain ⟨m0, hm0, hym0⟩ := List.mem_map.mp hy
  have hm0id : m0.id = x.id := by
    have hm'm0 : m'.id = m0.id := by rw [← hym', ← hym0, expUpd_id, warnUpd_id]
    rw [← hm'm0, hid', hsid]
  have hm0x : m0 = x := nodup_ids_inj meds hnd m0 hm0 x hxfil.1 hm0id
  rw [← hym', ← hym0, expUpd_alertPrior, hm0x]
  unfold warnUpd
  rw [hxfil.2, hatt]
  simp

theorem exp_mail_sets_flag (env : ScanEnv) (td : Nat) (meds : List MedRow)
    (hnd : (meds.map (fun m => m.id)).Nodup) {s : SentMail}
    (hs : s ∈ (meds.filter (expCond td)).filterMap (sentFor env env.sendOkE false)) :
    ∀ m' ∈ (sendExpiryAlerts env td meds).1, m'.id = s.medId → m'.alertExpiry = true := by
  obtain ⟨x, hxmem, hxs⟩ := List.mem_filterMap.mp hs
  have hxfil := List.mem_filter.mp hxmem
  have hsid := (sentFor_eq_some hxs).1
  have hatt := sentFor_some_attempt hxs
  intro m' hm' hid'
  have e1 : (sendExpiryAlerts env td meds).1 =
      (meds.map (warnUpd env td)).map (expUpd env td) := rfl
  rw [e1] at hm'
  obtain ⟨y, hy, hym'⟩ := List.mem_map.mp hm'
  obtain ⟨m0, hm0, hym0⟩ := List.mem_map.mp hy
  have hm0id : m0.id = x.id := by
    have hm'm0 : m'.id = m0.id := by rw [← hym', ← hym0, expUpd_id, warnUpd_id]
    rw [← hm'm0, hid', hsid]
  have hm0x : m0 = x := nodup_ids_inj meds hnd m0 hm0 x hxfil.1 hm0id
  rw [← hym', ← hym0, hm0x]
  unfold expUpd
  have hcondeq : expCond td (warnUpd env td x) = expCond td x := by
    unfold expCond
    rw [warnUpd_expiry, warnUpd_alertExpiry]
  have hatteq : attemptOk env env.sendOkE (warnUpd env td x) =
      attemptOk env env.sendOkE x := by
    unfold attemptOk
    rw [warnUpd_userId, warnUpd_id]
  rw [hcondeq, hatteq, hxfil.2, hatt]
  simp

theorem warn_no_mail_when_flagged (env : ScanEnv) (td : Nat) (i : Nat)
    (l : List MedRow) (hl : ∀ m ∈ l, m.id = i → m.alertPrior = true) :
    ((l.filter (warnCond td)).filterMap (sentFor env env.sendOkW true)).countP
      (fun s => s.medId == i && s.isWarning) = 0 := by
  rw [List.countP_eq_zero]
  intro s hs hps
  obtain ⟨x, hxmem, hxs⟩ := List.mem_filterMap.mp hs
  have hxfil := List.mem_filter.mp hxmem
  have hsid := (sentFor_eq_some hxs).1
  have hxi : x.id = i := by
    rw [← hsid]
    exact mailP_medId hps
  have hflag := hl x hxfil.1 hxi
  have hcond := hxfil.2
  unfold warnCond at hcond
  rw [hflag] at hcond
  simp at hcond

theorem exp_no_mail_when_flagged (env : ScanEnv) (td : Nat) (i : Nat)
    (l : List MedRow) (hl : ∀ m ∈ l, m.id = i → m.alertExpiry = true) :
    ((l.filter (expCond td)).filterMap (sentFor env env.sendOkE false)).countP
      (fun s => s.medId == i && !s.isWarning) = 0 := by
  rw [List.countP_eq_zero]
  intro s hs hps
  obtain ⟨x, hxmem, hxs⟩ := List.mem_filterMap.mp hs
  have hxfil := List.mem_filter.mp hxmem
  have hsid := (sentFor_eq_some hxs).1
  have hxi : x.id = i := by
    rw [← hsid]
    exact mailP_medId hps
  have hflag := hl x hxfil.1 hxi
  have hcond := hxfil.2
  unfold expCond at hcond
  rw [hflag] at hcond
  simp at hcond

/-- C2: running the scan twice on the same date delivers, for each medicine
id, at most one "expires tomorrow" mail and at most one "has expired" mail in
total across the two runs, whatever the mail environment of each run, because
each run re-queries by exact date equality plus flag-false and a confirmed
send sets the flag. -/
theorem scan_twice_at_most_one_email
    (env1 env2 : ScanEnv) (td : Nat) (meds : List MedRow)
    (hnd : (meds.map (fun m => m.id)).Nodup) (i : Nat) :
    (((sendExpiryAlerts env1 td meds).2 ++
      (sendExpiryAlerts env2 td (sendExpiryAlerts env1 td meds).1).2).countP
        (fun s => s.medId == i && s.isWarning) ≤ 1) ∧
    (((sendExpiryAlerts env1 td meds).2 ++
      (sendExpiryAlerts env2 td (sendExpiryAlerts env1 td meds).1).2).countP
        (fun s => s.medId == i && !s.isWarning) ≤ 1) := by
  have hnd1 : (((sendExpiryAlerts env1 td meds).1).map (fun m => m.id)).Nodup := by
    rw [scan_ids]
    exact hnd
  have e1 : (sendExpiryAlerts env1 td meds).2 =
      (meds.filter (warnCond td)).filterMap (sentFor env1 env1.sendOkW true) ++
      (meds.filter (expCond td)).filterMap (sentFor env1 env1.sendOkE false) := rfl
  have e2 : (sendExpiryAlerts env2 td (sendExpiryAlerts env1 td meds).1).2 =
      (((sendExpiryAlerts env1 td meds).1).filter (warnCond td)).filterMap
        (sentFor env2 env2.sendOkW true) ++
      (((sendExpiryAlerts env1 td meds).1).filter (expCond td)).filterMap
        (sentFor env2 env2.sendOkE false) := rfl
  constructor
  · rw [List.countP_append, e1, e2, List.countP_append, List.countP_append]
    have hB1 : ((meds.filter (expCond td)).filterMap
        (sentFor env1 env1.sendOkE false)).countP
        (fun s => s.medId == i && s.isWarning) = 0 :=
      filterMap_sentFor_countP_kind_zero env1 env1.sendOkE false _ _
        (fun s hw => by simp [hw])
    have hB2 : ((((sendExpiryAlerts env1 td meds).1).filter (expCond td)).filterMap
        (sentFor env2 env2.sendOkE false)).countP
        (fun s => s.medId == i && s.isWarning) = 0 :=
      filterMap_sentFor_countP_kind_zero env2 env2.sendOkE false _ _
        (fun s hw => by simp [hw])
    rcases Nat.eq_zero_or_pos (((meds.filter (warnCond td)).filterMap
        (sentFor env1 env1.sendOkW true)).countP
        (fun s => s.medId == i && s.isWarning)) with h0 | hpos
    · have hle2 : ((((sendExpiryAlerts env1 td meds).1).filter (warnCond td)).filterMap
          (sentFor env2 env2.sendOkW true)).countP
          (fun s => s.medId == i && s.isWarning) ≤ 1 :=
        filterMap_sentFor_countP_le_one env2 env2.sendOkW true (warnCond td) _ hnd1 i _
          (fun s hps => mailP_medId hps)
      omega
    · obtain ⟨s, hsmem, hps⟩ := List.countP_pos_iff.mp hpos
      have hsi : s.medId = i := mailP_medId hps
      have hz : ((((sendExpiryAlerts env1 td meds).1).filter (warnCond td)).filterMap
          (sentFor env2 env2.sendOkW true)).countP
          (fun s => s.medId == i && s.isWarning) = 0 :=
        warn_no_mail_when_flagged env2 td i _
          (fun m' hm' hid => warn_mail_sets_flag env1 td meds hnd hsmem m' hm'
            (by rw [hid, hsi]))
      have hle1 : ((meds.filter (warnCond td)).filterMap
          (sentFor env1 env1.sendOkW true)).countP
          (fun s => s.medId == i && s.isWarning) ≤ 1 :=
        filterMap_sentFor_countP_le_one env1 env1.sendOkW true (warnCond td) meds hnd i _
          (fun s hps => mailP_medId hps)
      omega
  · rw [List.countP_append, e1, e2, List.countP_append, List.countP_append]
    have hA1 : ((meds.filter (warnCond td)).filterMap
        (sentFor env1 env1.sendOkW true)).countP
        (fun s => s.medId == i && !s.isWarning) = 0 :=
      filterMap_sentFor_countP_kind_zero env1 env1.sendOkW true _ _
        (fun s hw => by simp [hw])
    have hA2 : ((((sendExpiryAlerts env1 td meds).1).filter (warnCond td)).filterMap
        (sentFor env2 env2.sendOkW true)).countP
        (fun s => s.medId == i && !s.isWarning) = 0 :=
      filterMap_sentFor_countP_kind_zero env2 env2.sendOkW true _ _
        (fun s hw => by simp [hw])
    rcases Nat.eq_zero_or_pos (((meds.filter (expCond td)).filterMap
        (sentFor env1 env1.sendOkE false)).countP
        (fun s => s.medId == i && !s.isWarning)) with h0 | hpos
    · have hle2 : ((((sendExpiryAlerts env1 td meds).1).filter (expCond td)).filterMap
          (sentFor env2 env2.sendOkE false)).countP
          (fun s => s.medId == i && !s.isWarning) ≤ 1 :=
        filterMap_sentFor_countP_le_one env2 env2.sendOkE false (expCond td) _ hnd1 i _
          (fun s hps => mailP_medId hps)
      omega
    · obtain ⟨s, hsmem, hps⟩ := List.countP_pos_iff.mp hpos
      have hsi : s.medId = i := mailP_medId hps
      have hz : ((((sendExpiryAlerts env1 td meds).1).filter (expCond td)).filterMap
          (sentFor env2 env2.sendOkE false)).countP
          (fun s => s.medId == i && !s.isWarning) = 0 :=
        exp_no_mail_when_flagged env2 td i _
          (fun m' hm' hid => exp_mail_sets_flag env1 td meds hnd hsmem m' hm'
            (by rw [hid, hsi]))
      have hle1 : ((meds.filter (expCond td)).filterMap
          (sentFor env1 env1.sendOkE false)).countP
          (fun s => s.medId == i && !s.isWarning) ≤ 1 :=
        filterMap_sentFor_countP_le_one env1 env1.sendOkE false (expCond td) meds hnd i _
          (fun s hps => mailP_medId hps)
      omega

theorem scan_twice_at_most_one_email_witness :
    (((sendExpiryAlerts ⟨[⟨1, "bob", "b@x.co", "h"⟩], true, fun _ => true,
        fun _ => true⟩ 10 [⟨9, "P", "A", 1, 11, "u", "q", false, false, 1⟩]).2 ++
      (sendExpiryAlerts ⟨[⟨1, "bob", "b@x.co", "h"⟩], true, fun _ => true,
        fun _ => true⟩ 10
        (sendExpiryAlerts ⟨[⟨1, "bob", "b@x.co", "h"⟩], true, fun _ => true,
          fun _ => true⟩ 10 [⟨9, "P", "A", 1, 11, "u", "q", false, false, 1⟩]).1).2).countP
        (fun s => s.medId == 9 && s.isWarning) ≤ 1) ∧
    (((sendExpiryAlerts ⟨[⟨1, "bob", "b@x.co", "h"⟩], true, fun _ => true,
        fun _ => true⟩ 10 [⟨9, "P", "A", 1, 11, "u", "q", false, false, 1⟩]).2 ++
      (sendExpiryAlerts ⟨[⟨1, "bob", "b@x.co", "h"⟩], true, fun _ => true,
        fun _ => true⟩ 10
        (sendExpiryAlerts ⟨[⟨1, "bob", "b@x.co", "h"⟩], true, fun _ => true,
          fun _ => true⟩ 10 [⟨9, "P", "A", 1, 11, "u", "q", false, false, 1⟩]).1).2).countP
        (fun s => s.medId == 9 && !s.isWarning) ≤ 1) :=
  scan_twice_at_most_one_email
    ⟨[⟨1, "bob", "b@x.co", "h"⟩], true, fun _ => true, fun _ => true⟩
    ⟨[⟨1, "bob", "b@x.co", "h"⟩], true, fun _ => true, fun _ => true⟩ 10
    [⟨9, "P", "A", 1, 11, "u", "q", false, false, 1⟩] (by decide) 9

/-! ## C8: QR payload round-trip -/

theorem hexVal?_hexDigit (n : Nat) (h : n < 16) : hexVal? (hexDigit n) = some n := by
  by_cases h10 : n < 10
  · have e : hexDigit n = 48 + n := if_pos h10
    rw [e]
    unfold hexVal?
    rw [if_pos (by simp; omega)]
    congr 1
    omega
  · have e : hexDigit n = 55 + n := if_neg h10
    rw [e]
    unfold hexVal?
    rw [if_neg (by simp; omega), if_pos (by simp; omega)]
    congr 1
    omega

theorem isSafeByte_not_special {b : Nat} (h : isSafeByte b = true) :
    b ≠ 43 ∧ b ≠ 37 ∧ isReservedQueryByte b = false := by
  unfold isSafeByte at h
  unfold isReservedQueryByte
  simp at h ⊢
  omega

theorem hexDigit_not_reserved (n : Nat) (h : n < 16) :
    isReservedQueryByte (hexDigit n) = false := by
  unfold hexDigit isReservedQueryByte
  by_cases h10 : n < 10 <;> simp [h10] <;> omega

theorem not_reserved_ne {x : Nat} (h : isReservedQueryByte x = false) :
    x ≠ 38 ∧ x ≠ 61 ∧ x ≠ 43 := by
  unfold isReservedQueryByte at h
  simp at h
  omega

theorem mem_quoteByte_not_reserved {b x : Nat} (hb : b < 256) (hx : x ∈ quoteByte b) :
    isReservedQueryByte x = false := by
  unfold quoteByte at hx
  by_cases hs : isSafeByte b = true
  · rw [if_pos hs] at hx
    simp at hx
    rw [hx]
    exact (isSafeByte_not_special hs).2.2
  · rw [if_neg hs] at hx
    simp [List.mem_cons] at hx
    rcases hx with hx | hx | hx
    · rw [hx]; rfl
    · rw [hx]; exact hexDigit_not_reserved _ (by omega)
    · rw [hx]; exact hexDigit_not_reserved _ (by omega)

theorem mem_quoteBytes_not_reserved {l : List Nat} (hl : ∀ b ∈ l, b < 256) :
    ∀ x ∈ quoteBytes l, isReservedQueryByte x = false := by
  induction l with
  | nil => intro x hx; cases hx
  | cons b t ih =>
    intro x hx
    rcases List.mem_append.mp hx with hx | hx
    · exact mem_quoteByte_not_reserved (hl b (List.mem_cons_self b t)) hx
    · exact ih (fun y hy => hl y (List.mem_cons_of_mem _ hy)) x hx

theorem unquoteAux_congr : ∀ (f g : Nat) (l : List Nat), l.length ≤ f → l.length ≤ g →
    unquoteAux f l = unquoteAux g l := by
  intro f
  induction f with
  | zero =>
    intro g l hf hg
    have : l = [] := List.eq_nil_of_length_eq_zero (Nat.le_zero.mp hf)
    subst this
    cases g <;> rfl
  | succ f ih =>
    intro g l hf hg
    cases l with
    | nil => cases g <;> rfl
    | cons c rest =>
      cases g with
      | zero => simp at hg
      | succ g' =>
        have hf' : rest.length ≤ f := by simp at hf; omega
        have hg' : rest.length ≤ g' := by simp at hg; omega
        simp only [unquoteAux]
        by_cases h43 : (c == 43) = true
        · rw [if_pos h43, if_pos h43, ih g' rest hf' hg']
        · rw [if_neg h43, if_neg h43]
          by_cases h37 : (c == 37) = true
          · rw [if_pos h37, if_pos h37]
            cases rest with
            | nil =>
              show 37 :: unquoteAux f [] = 37 :: unquoteAux g' []
              rw [ih g' [] (by simp) (by simp)]
            | cons h1 rest1 =>
              cases rest1 with
              | nil =>
                show 37 :: unquoteAux f [h1] = 37 :: unquoteAux g' [h1]
                rw [ih g' [h1] hf' hg']
              | cons h2 rest2 =>
                have hf2 : rest2.length ≤ f := by simp at hf'; omega
                have hg2 : rest2.length ≤ g' := by simp at hg'; omega
                cases hh1 : hexVal? h1 <;> cases hh2 : hexVal? h2 <;>
                  simp only [hh1, hh2]
                · rw [ih g' (h1 :: h2 :: rest2) hf' hg']
                · rw [ih g' (h1 :: h2 :: rest2) hf' hg']
                · rw [ih g' (h1 :: h2 :: rest2) hf' hg']
                · rw [ih g' rest2 hf2 hg2]
          · rw [if_neg h37, if_neg h37, ih g' rest hf' hg']

theorem unquotePlus_cons_ne (c : Nat) (rest : List Nat) (h43 : c ≠ 43) (h37 : c ≠ 37) :
    unquotePlus (c :: rest) = c :: unquotePlus rest := by
  show unquoteAux (c :: rest).length (c :: rest) = c :: unquoteAux rest.length rest
  simp only [List.length_cons, unquoteAux]
  rw [if_neg (by simp [h43]), if_neg (by simp [h37])]

theorem unquotePlus_escape (h1 h2 : Nat) (rest : List Nat) (a b : Nat)
    (hh1 : hexVal? h1 = some a) (hh2 : hexVal? h2 = some b) :
    unquotePlus (37 :: h1 :: h2 :: rest) = (16 * a + b) :: unquotePlus rest := by
  show unquoteAux (37 :: h1 :: h2 :: rest).length (37 :: h1 :: h2 :: rest) =
    (16 * a + b) :: unquoteAux rest.length rest
  simp only [List.length_cons, unquoteAux]
  rw [if_neg (by decide), if_pos (by decide)]
  simp only [hh1, hh2]
  rw [unquoteAux_congr (rest.length + 1 + 1) rest.length rest (by omega) (Nat.le_refl _)]

theorem unquotePlus_quoteBytes (l : List Nat) (hl : ∀ b ∈ l, b < 256) :
    unquotePlus (quoteBytes l) = l := by
  induction l with
  | nil => rfl
  | cons b t ih =>
    have hb := hl b (List.mem_cons_self b t)
    have iht := ih (fun y hy => hl y (List.mem_cons_of_mem _ hy))
    show unquotePlus (quoteByte b ++ quoteBytes t) = b :: t
    unfold quoteByte
    by_cases hs : isSafeByte b = true
    · rw [if_pos hs]
      show unquotePlus (b :: quoteBytes t) = b :: t
      rw [unquotePlus_cons_ne b _ (isSafeByte_not_special hs).1
        (isSafeByte_not_special hs).2.1, iht]
    · rw [if_neg hs]
      show unquotePlus (37 :: hexDigit (b / 16) :: hexDigit (b % 16) :: quoteBytes t) =
        b :: t
      rw [unquotePlus_escape _ _ _ (b / 16) (b % 16)
        (hexVal?_hexDigit _ (by omega)) (hexVal?_hexDigit _ (by omega)), iht]
      congr 1
      omega

theorem unquotePlus_passthrough (l : List Nat) (hl : ∀ b ∈ l, b ≠ 43 ∧ b ≠ 37) :
    unquotePlus l = l := by
  induction l with
  | nil => rfl
  | cons c rest ih =>
    have hc := hl c (List.mem_cons_self c rest)
    rw [unquotePlus_cons_ne c rest hc.1 hc.2,
      ih (fun y hy => hl y (List.mem_cons_of_mem _ hy))]

theorem splitOnByte_no_sep (sep : Nat) (l : List Nat) (h : ∀ x ∈ l, x ≠ sep) :
    splitOnByte sep l = [l] := by
  induction l with
  | nil => rfl
  | cons c rest ih =>
    unfold splitOnByte
    rw [if_neg (by simp [h c (List.mem_cons_self c rest)]),
      ih (fun y hy => h y (List.mem_cons_of_mem _ hy))]

theorem splitOnByte_append (sep : Nat) (a b' : List Nat) (h : ∀ x ∈ a, x ≠ sep) :
    splitOnByte sep (a ++ sep :: b') = a :: splitOnByte sep b' := by
  induction a with
  | nil =>
    show splitOnByte sep (sep :: b') = [] :: splitOnByte sep b'
    rw [splitOnByte, if_pos (by simp)]
  | cons c a' ih =>
    show splitOnByte sep (c :: (a' ++ sep :: b')) = (c :: a') :: splitOnByte sep b'
    rw [splitOnByte, if_neg (by simp [h c (List.mem_cons_self _ _)]),
      ih (fun y hy => h y (List.mem_cons_of_mem _ hy))]

theorem splitPairByte_append (k v : List Nat) (h : ∀ x ∈ k, x ≠ 61) :
    splitPairByte (k ++ 61 :: v) = (k, v) := by
  induction k with
  | nil =>
    show splitPairByte (61 :: v) = ([], v)
    unfold splitPairByte
    rw [if_pos (by simp)]
  | cons c k' ih =>
    show splitPairByte (c :: (k' ++ 61 :: v)) = (c :: k', v)
    unfold splitPairByte
    rw [if_neg (by simp [h c (List.mem_cons_self _ _)]),
      ih (fun y hy => h y (List.mem_cons_of_mem _ hy))]

theorem dateBytes_mem (dt : PyDate) : ∀ b ∈ dateBytes dt, (48 ≤ b ∧ b ≤ 57) ∨ b = 45 := by
  intro b hb
  unfold dateBytes pad4 pad2 at hb
  simp [List.mem_append, List.mem_cons] at hb
  omega

theorem dateBytes_ne (dt : PyDate) : ∀ b ∈ dateBytes dt,
    b ≠ 38 ∧ b ≠ 61 ∧ b ≠ 43 ∧ b ≠ 37 := by
  intro b hb
  have := dateBytes_mem dt b hb
  omega

/-- C8: parsing the query string of the QR URL produced at creation recovers
exactly the five fields — name, factory, uses as the original byte strings,
and the two dates as their `YYYY-MM-DD` renderings — and the quoted free-text
fields contain none of the reserved query bytes `& = + space # ?` literally
(they are percent-encoded). -/
theorem qr_payload_roundtrip (name fac uses : List Nat) (mfg exp : PyDate)
    (hn : ∀ b ∈ name, b < 256) (hf : ∀ b ∈ fac, b < 256)
    (hu : ∀ b ∈ uses, b < 256) :
    parseQuery (qrQueryBytes name fac uses mfg exp) =
      [(kName, name), (kFactory, fac), (kMfg, dateBytes mfg),
       (kExp, dateBytes exp), (kUses, uses)] ∧
    (∀ b ∈ quoteBytes name ++ quoteBytes fac ++ quoteBytes uses,
      isReservedQueryByte b = false) := by
  have hqn := mem_quoteBytes_not_reserved hn
  have hqf := mem_quoteBytes_not_reserved hf
  have hqu := mem_quoteBytes_not_reserved hu
  constructor
  · have hq : qrQueryBytes name fac uses mfg exp =
        (kName ++ 61 :: quoteBytes name) ++ 38 ::
        ((kFactory ++ 61 :: quoteBytes fac) ++ 38 ::
        ((kMfg ++ 61 :: dateBytes mfg) ++ 38 ::
        ((kExp ++ 61 :: dateBytes exp) ++ 38 ::
        (kUses ++ 61 :: quoteBytes uses)))) := by
      unfold qrQueryBytes
      simp [List.append_assoc]
    have chunkNe38 : ∀ (k q : List Nat), (∀ x ∈ k, x ≠ 38) →
        (∀ x ∈ q, isReservedQueryByte x = false) →
        ∀ x ∈ k ++ 61 :: q, x ≠ 38 := by
      intro k q hk hq x hx
      rcases List.mem_append.mp hx with hx | hx
      · exact hk x hx
      · rcases List.mem_cons.mp hx with rfl | hx
        · omega
        · exact (not_reserved_ne (hq x hx)).1
    have hdm : ∀ x ∈ dateBytes mfg, x ≠ 38 := fun x hx => (dateBytes_ne mfg x hx).1
    have hde : ∀ x ∈ dateBytes exp, x ≠ 38 := fun x hx => (dateBytes_ne exp x hx).1
    rw [hq]
    unfold parseQuery
    rw [splitOnByte_append 38 _ _
        (chunkNe38 kName (quoteBytes name) (by decide) hqn),
      splitOnByte_append 38 _ _
        (chunkNe38 kFactory (quoteBytes fac) (by decide) hqf),
      splitOnByte_append 38 _ _ (by
        intro x hx
        rcases List.mem_append.mp hx with hx | hx
        · exact (show ∀ y ∈ kMfg, y ≠ 38 from by decide) x hx
        · rcases List.mem_cons.mp hx with rfl | hx
          · omega
          · exact hdm x hx),
      splitOnByte_append 38 _ _ (by
        intro x hx
        rcases List.mem_append.mp hx with hx | hx
        · exact (show ∀ y ∈ kExp, y ≠ 38 from by decide) x hx
        · rcases List.mem_cons.mp hx with rfl | hx
          · omega
          · exact hde x hx),
      splitOnByte_no_sep 38 _
        (chunkNe38 kUses (quoteBytes uses) (by decide) hqu)]
    simp only [List.map_cons, List.map_nil]
    rw [splitPairByte_append kName (quoteBytes name) (by decide),
      splitPairByte_append kFactory (quoteBytes fac) (by decide),
      splitPairByte_append kMfg (dateBytes mfg) (by decide),
      splitPairByte_append kExp (dateBytes exp) (by decide),
      splitPairByte_append kUses (quoteBytes uses) (by decide)]
    simp only []
    rw [unquotePlus_quoteBytes name hn, unquotePlus_quoteBytes fac hf,
      unquotePlus_quoteBytes uses hu,
      unquotePlus_passthrough (dateBytes mfg)
        (fun b hb => ⟨(dateBytes_ne mfg b hb).2.2.1, (dateBytes_ne mfg b hb).2.2.2⟩),
      unquotePlus_passthrough (dateBytes exp)
        (fun b hb => ⟨(dateBytes_ne exp b hb).2.2.1, (dateBytes_ne exp b hb).2.2.2⟩),
      show unquotePlus kName = kName from by decide,
      show unquotePlus kFactory = kFactory from by decide,
      show unquotePlus kMfg = kMfg from by decide,
      show unquotePlus kExp = kExp from by decide,
      show unquotePlus kUses = kUses from by decide]
  · intro b hb
    rcases List.mem_append.mp hb with hb | hb
    · rcases List.mem_append.mp hb with hb | hb
      · exact hqn b hb
      · exact hqf b hb
    · exact hqu b hb

theorem qr_payload_roundtrip_witness :
    parseQuery (qrQueryBytes [104, 38, 61, 43] [102, 32, 35] [117, 63, 37]
        ⟨2025, 1, 9⟩ ⟨2025, 12, 31⟩) =
      [(kName, [104, 38, 61, 43]), (kFactory, [102, 32, 35]),
       (kMfg, dateBytes ⟨2025, 1, 9⟩), (kExp, dateBytes ⟨2025, 12, 31⟩),
       (kUses, [117, 63, 37])] ∧
    (∀ b ∈ quoteBytes [104, 38, 61, 43] ++ quoteBytes [102, 32, 35] ++
        quoteBytes [117, 63, 37], isReservedQueryByte b = false) :=
  qr_payload_roundtrip [104, 38, 61, 43] [102, 32, 35] [117, 63, 37]
    ⟨2025, 1, 9⟩ ⟨2025, 12, 31⟩ (by decide) (by decide) (by decide)

/-! ## C1: deletion versus QR-image-removal failure -/

/-- C1 counterexample: for a medicine owned by the caller whose QR file exists,
a raising `os.remove` makes `delete_medicine` flash an error and leave the
database row (and the whole state) untouched — the row deletion does not
commit, contrary to the claim that an image-removal failure never blocks it. -/
theorem delete_qr_failure_blocks_row :
    delete_medicine
      ⟨[⟨5, "Para", "ACME", 10, 20, "pain", "static/qrcodes/a.png", false, false, 1⟩],
       ["static/qrcodes/a.png"]⟩ 1 5 true =
    (.errorFlash,
     ⟨[⟨5, "Para", "ACME", 10, 20, "pain", "static/qrcodes/a.png", false, false, 1⟩],
      ["static/qrcodes/a.png"]⟩) := by decide

/-- C1 (amended): for a delete of a medicine owned by the caller, a failure
while removing an existing QR image file aborts the whole operation — the row
is not deleted, the state is unchanged and an error is flashed; the row
deletion commits exactly when the removal step does not raise (in particular
when the QR file is absent the removal is skipped and deletion proceeds). -/
theorem delete_medicine_qr_failure_aborts
    (st : AppState) (uid mid : Nat) (med : MedRow) (rr : Bool)
    (hf : st.meds.find? (fun m => m.id == mid) = some med)
    (hown : med.userId = uid) :
    (st.files.contains med.qrCode = true → rr = true →
      delete_medicine st uid mid rr = (.errorFlash, st)) ∧
    (st.files.contains med.qrCode = false ∨ rr = false →
      (delete_medicine st uid mid rr).1 = .deleted ∧
      (delete_medicine st uid mid rr).2.meds = st.meds.filter (fun m => m.id != mid)) := by
  unfold delete_medicine
  rw [hf]
  constructor
  · intro hc hr
    have hmem : med.qrCode ∈ st.files := by simpa using hc
    simp [hown, hmem, hr]
  · intro h
    rcases h with hc | hr
    · have hmem : med.qrCode ∉ st.files := by simpa using hc
      simp [hown, hmem]
    · subst hr
      by_cases hmem : med.qrCode ∈ st.files <;> simp [hown, hmem]

theorem delete_medicine_qr_failure_aborts_witness :
    delete_medicine
      ⟨[⟨5, "P", "A", 10, 20, "u", "q.png", false, false, 1⟩], ["q.png"]⟩ 1 5 true =
      (.errorFlash, ⟨[⟨5, "P", "A", 10, 20, "u", "q.png", false, false, 1⟩], ["q.png"]⟩) ∧
    (delete_medicine
      ⟨[⟨5, "P", "A", 10, 20, "u", "q.png", false, false, 1⟩], ["q.png"]⟩ 1 5 false).1 =
      .deleted :=
  ⟨(delete_medicine_qr_failure_aborts
      ⟨[⟨5, "P", "A", 10, 20, "u", "q.png", false, false, 1⟩], ["q.png"]⟩ 1 5
      ⟨5, "P", "A", 10, 20, "u", "q.png", false, false, 1⟩ true (by decide) rfl).1
      (by decide) rfl,
   ((delete_medicine_qr_failure_aborts
      ⟨[⟨5, "P", "A", 10, 20, "u", "q.png", false, false, 1⟩], ["q.png"]⟩ 1 5
      ⟨5, "P", "A", 10, 20, "u", "q.png", false, false, 1⟩ false (by decide) rfl).2
      (Or.inr rfl)).1⟩

/-! ## C5: expiry not after manufacturing -/

/-- C5: whenever all five stripped fields are nonblank and both dates parse,
a parsed expiry date less than or equal to the parsed manufacturing date makes
`add_medicine` fail with the order error, leaving the medicine table and the
QR file store exactly as they were. -/
theorem add_medicine_order_error
    (st : AppState) (uid : Nat) (parseDate : String → Option Nat)
    (name fac mfg_s exp_s uses qrFile : String) (nextId mfg exp : Nat)
    (hn : (pyStrip name == "") = false) (hf : (pyStrip fac == "") = false)
    (hm : (pyStrip mfg_s == "") = false) (he : (pyStrip exp_s == "") = false)
    (hu : (pyStrip uses == "") = false)
    (hpm : parseDate (pyStrip mfg_s) = some mfg)
    (hpe : parseDate (pyStrip exp_s) = some exp)
    (hord : exp ≤ mfg) :
    add_medicine st uid parseDate name fac mfg_s exp_s uses qrFile nextId =
      (.orderErr, st) := by
  unfold add_medicine
  simp [hn, hf, hm, he, hu, hpm, hpe, hord]

theorem add_medicine_order_error_witness :
    add_medicine ⟨[], []⟩ 1
      (fun s => if s == "2026-01-10" then some 200
                else if s == "2025-01-10" then some 100 else none)
      "Para" "ACME" "2026-01-10" "2025-01-10" "pain" "q.png" 7 =
    (.orderErr, ⟨[], []⟩) :=
  add_medicine_order_error ⟨[], []⟩ 1
    (fun s => if s == "2026-01-10" then some 200
              else if s == "2025-01-10" then some 100 else none)
    "Para" "ACME" "2026-01-10" "2025-01-10" "pain" "q.png" 7 200 100
    (by decide) (by decide) (by decide) (by decide) (by decide)
    (by decide) (by decide) (by decide)

/-! ## C6: login matching -/

/-- C6 counterexample: the user is stored with username "Alice" and the
supplied identifier is exactly "Alice" with the correct password, yet login
fails, because the handler lowercases the identifier before the equality
comparison while signup never lowercases usernames. -/
theorem login_exact_username_match_fails :
    login [⟨1, "Alice", "alice@example.com", hashPw "hunter42"⟩] "Alice" "hunter42" =
      none ∧
    checkPw (hashPw "hunter42") (pyStrip "hunter42") = true := by decide

/-- C6 (amended): login strips and lowercases the identifier and compares it
for plain equality against each stored username and email; for the first user
so matched, a password verifying against the stored hash establishes a session
principal carrying that user's id, username and email.  (Stored emails are
lowercased at signup, so email matching is case-insensitive in effect, but a
stored username containing an uppercase letter can never be matched.) -/
theorem login_lowercased_match_success
    (users : List UserRow) (loginInput pwd : String) (u : UserRow)
    (hfind : users.find? (fun v =>
        v.username == pyLower (pyStrip loginInput) ||
        v.email == pyLower (pyStrip loginInput)) = some u)
    (hpw : checkPw u.password (pyStrip pwd) = true) :
    login users loginInput pwd = some ⟨u.id, u.username, u.email⟩ := by
  simp only [login]
  rw [hfind]
  simp [hpw]

theorem login_lowercased_match_success_witness :
    login [⟨1, "alice", "alice@example.com", hashPw "pw123456"⟩] "ALICE" "pw123456" =
      some ⟨1, "alice", "alice@example.com"⟩ :=
  login_lowercased_match_success
    [⟨1, "alice", "alice@example.com", hashPw "pw123456"⟩] "ALICE" "pw123456"
    ⟨1, "alice", "alice@example.com", hashPw "pw123456"⟩ (by decide) (by decide)

/-! ## C7: ownership checks on view and delete -/

/-- C7: a missing id yields NotFound on both view and delete; a medicine owned
by another user yields Forbidden on both (delete leaving the state untouched);
view returns the record exactly when the session user id equals the record's
user id, and delete removes the row only under the same condition. -/
theorem ownership_enforced (st : AppState) (uid mid : Nat) (rr : Bool) :
    (st.meds.find? (fun m => m.id == mid) = none →
      view_medicine st uid mid = .notFound ∧
      (delete_medicine st uid mid rr).1 = .notFound) ∧
    (∀ med, st.meds.find? (fun m => m.id == mid) = some med → med.userId ≠ uid →
      view_medicine st uid mid = .forbidden ∧
      delete_medicine st uid mid rr = (.forbidden, st)) ∧
    (∀ med, st.meds.find? (fun m => m.id == mid) = some med →
      (view_medicine st uid mid = .page med ↔ med.userId = uid)) ∧
    ((delete_medicine st uid mid rr).1 = .deleted →
      ∃ med, st.meds.find? (fun m => m.id == mid) = some med ∧ med.userId = uid) := by
  refine ⟨?_, ?_, ?_, ?_⟩
  · intro h
    unfold view_medicine delete_medicine
    rw [h]
    exact ⟨rfl, rfl⟩
  · intro med h hne
    unfold view_medicine delete_medicine
    rw [h]
    simp [hne]
  · intro med h
    unfold view_medicine
    rw [h]
    constructor
    · intro hv
      by_contra hne
      simp [hne] at hv
    · intro he
      simp [he]
  · intro hd
    unfold delete_medicine at hd
    cases hfind : st.meds.find? (fun m => m.id == mid) with
    | none => rw [hfind] at hd; simp at hd
    | some med =>
      rw [hfind] at hd
      by_cases hne : med.userId = uid
      · exact ⟨med, rfl, hne⟩
      · simp [hne] at hd

theorem ownership_enforced_witness :
    view_medicine ⟨[⟨5, "P", "A", 10, 20, "u", "q", false, false, 1⟩], []⟩ 2 5 =
      .forbidden ∧
    delete_medicine ⟨[⟨5, "P", "A", 10, 20, "u", "q", false, false, 1⟩], []⟩ 2 5 false =
      (.forbidden, ⟨[⟨5, "P", "A", 10, 20, "u", "q", false, false, 1⟩], []⟩) :=
  (ownership_enforced ⟨[⟨5, "P", "A", 10, 20, "u", "q", false, false, 1⟩], []⟩ 2 5
      false).2.1
    ⟨5, "P", "A", 10, 20, "u", "q", false, false, 1⟩ (by decide) (by decide)

/-! ## C10: extra signup validations -/

/-- C10: a signup whose stripped lowercased email does not match the
`[\w.-]+@[\w.-]+\.\w+` pattern, or whose stripped password is shorter than six
characters, never creates a user row: the result is an error and the user
table is returned unchanged. -/
theorem signup_rejects_invalid_email_and_short_password
    (users : List UserRow) (nextId : Nat) (uname email pwd : String)
    (h : isValidEmail (pyLower (pyStrip email)) = false ∨ (pyStrip pwd).length < 6) :
    (signup users nextId uname email pwd).1 ≠ .created ∧
    (signup users nextId uname email pwd).2 = users := by
  simp only [signup]
  split
  · exact ⟨by simp, rfl⟩
  · split
    · exact ⟨by simp, rfl⟩
    · split
      · exact ⟨by simp, rfl⟩
      · split
        · exact ⟨by simp, rfl⟩
        · rename_i hblank hemail hlen hdup
          exfalso
          rcases h with h | h
          · simp [h] at hemail
          · exact hlen h

theorem signup_rejects_invalid_email_and_short_password_witness :
    ((signup [] 1 "bob" "not-an-email" "longpassword").1 ≠ .created ∧
      (signup [] 1 "bob" "not-an-email" "longpassword").2 = []) ∧
    ((signup [] 1 "bob" "bob@example.com" "tiny").1 ≠ .created ∧
      (signup [] 1 "bob" "bob@example.com" "tiny").2 = []) :=
  ⟨signup_rejects_invalid_email_and_short_password [] 1 "bob" "not-an-email"
      "longpassword" (Or.inl (by decide)),
   signup_rejects_invalid_email_and_short_password [] 1 "bob" "bob@example.com"
      "tiny" (Or.inr (by decide))⟩

end ProMed
